import Mathlib

/-!
Verification development for the `lol_laning_gt_rl` repository: a shallow
embedding in Lean 4 of the laning Markov-game environment (`src/env.py`)
and the tabular Q-learning agent (`src/agents.py`), together with theorems
settling the specification's claims against the embedded code.

Python floats are modelled as rationals (`ℚ`); Python ints as `ℤ` (the step
counter `t` as `ℕ`); the global random generator is made explicit: every
`random.random()` draw becomes an explicit rational argument `u` in `[0,1)`.
Python exceptions are modelled with `Except`.
-/

/-- Python exceptions that the embedded code can raise:
`invalidAction` models the `ValueError("INVALID ACTION, NOT SP, SH, F")`
raised by `delta_w`; `typeError` models the `TypeError` raised by the call
`self.gank_penalty(self, w, v, a_self)` at `env.py:140`, which passes five
arguments to the four-parameter method `gank_penalty`. -/
inductive Err where
  | invalidAction
  | typeError
deriving DecidableEq, Repr

-- Actions (env.py line 5): SP, SH, F = 0, 1, 2
def SP : ℤ := 0
def SH : ℤ := 1
def F : ℤ := 2

-- env.py line 6: ACTIONS = [SP, SH, F]
def ACTIONS : List ℤ := [SP, SH, F]

/-- Observation tuple `state_ss` of `env.py` line 9:
`(w, m_self, m_opp, v_self, v_opp, g)`; `g` is a float in the source. -/
abbrev Obs : Type := ℤ × ℤ × ℤ × ℤ × ℤ × ℚ

/-- Indicator function `I` of `env.py` lines 12-13 (the Python `int` result
is modelled directly as a rational, since it is only used in float
arithmetic). -/
def I (c : Prop) [Decidable c] : ℚ :=
  if c then 1 else 0

/-- Bernoulli draw of `utils.py` lines 11-12, with the `random.random()`
uniform draw `u` made explicit: `1 if u < p else 0`. -/
def bern (p : ℚ) (u : ℚ) : ℤ :=
  if u < p then 1 else 0

/-- Parameter bundle `LaneParams` of `env.py` lines 17-45. -/
structure LaneParams where
  T : ℕ
  G : ℚ
  eps : ℚ
  p_v : ℚ
  b_plates : ℚ
  b_deny : ℚ
  b_deny_bonus : ℚ
  b_crash : ℚ
  q0 : ℚ
  q1 : ℚ
  q2 : ℚ
  L : ℚ
deriving DecidableEq, Repr

/-- Default parameter values of the `LaneParams` constructor:
`T=40, G=3, eps=0.3, p_v=0.6, b_plates=0.6, b_deny=0.4, b_deny_bonus=0.2,
b_crash=0.8, q0=0.05, q1=0.2, q2=0.15, L=5`. -/
def defaultParams : LaneParams :=
  ⟨40, 3, 3/10, 3/5, 3/5, 2/5, 1/5, 4/5, 1/20, 1/5, 3/20, 5⟩

/-- Internal state of `LaneEnv` (`env.py` lines 48-58):
fields `w, m_self, m_opp, v_self, v_opp` are Python ints, `g` becomes a
float after the first step, `t` counts steps. -/
structure GameState where
  w : ℤ
  m_self : ℤ
  m_opp : ℤ
  v_self : ℤ
  v_opp : ℤ
  g : ℚ
  t : ℕ
deriving DecidableEq, Repr

/-- `ss_you` of `env.py` lines 67-68. -/
def ss_you (s : GameState) : Obs :=
  (s.w, s.m_self, s.m_opp, s.v_self, s.v_opp, s.g)

/-- `ss_opp` of `env.py` lines 69-70. -/
def ss_opp (s : GameState) : Obs :=
  (-s.w, s.m_opp, s.m_self, s.v_opp, s.v_self, -s.g)

/-- `delta_w` of `env.py` lines 75-82: wave delta per action, raising
`ValueError` on anything outside `SP`, `SH`, `F`. -/
def delta_w (a : ℤ) : Except Err ℤ :=
  if a = SP then Except.ok 1
  else if a = SH then Except.ok 2
  else if a = F then Except.ok (-1)
  else Except.error Err.invalidAction

/-- `payoff_matrix` of `env.py` lines 85-101: `0` on the diagonal, `+eps`
when `(a, b)` is one of the "counter" pairs `(SP, SH), (SH, F), (F, SP)`,
otherwise `-eps`. -/
def payoff_matrix (p : LaneParams) (a b : ℤ) : ℚ :=
  if a = b then 0
  else if (a, b) = (SP, SH) ∨ (a, b) = (SH, F) ∨ (a, b) = (F, SP) then p.eps
  else -p.eps

/-- `gank_penalty` of `env.py` lines 104-107:
`(1 - v) * clamp01(q0 + q1*(w == 2) + q2*(a == SH))` (the two sequential
assignments to `base` are inlined). -/
def gank_penalty (p : LaneParams) (w v a : ℤ) : ℚ :=
  (1 - (v : ℚ)) * max 0 (min 1 (p.q0 + p.q1 * I (w = 2) + p.q2 * I (a = SH)))

/-- `wave_update` of `env.py` lines 110-118 (the stack update; the call
sites at lines 174-175 refer to it as `self.update_stack`, a name that does
not exist on the class — `wave_update` is the only stack-update code in the
source). -/
def wave_update (m a w_next : ℤ) : ℤ :=
  if a = SP ∧ w_next < 2 then min 2 (m + 1)
  else if a = SH ∧ w_next = 2 then 0
  else if a = F then max 0 (m - 1)
  else m

/-- `reset` of `env.py` lines 121-128: sets every field, including both
vision flags, to zero, and returns `None` (its own annotation is
`-> None`); the resulting state is modelled as a constant. -/
def reset_code : GameState :=
  ⟨0, 0, 0, 0, 0, 0, 0⟩

/-- Modelled from the spec (for comparison with `reset_code` only): `reset`
as claim C4 and spec section 3 describe it — `w=m_self=m_opp=g=t=0` with
`v_self`, `v_opp` freshly sampled as independent Bernoulli(`p_v`) draws (the
two uniform draws `u1`, `u2` made explicit), returning the pair of mirrored
observations. -/
def resetSpec (p : LaneParams) (u1 u2 : ℚ) : GameState × (Obs × Obs) :=
  let s : GameState := ⟨0, 0, 0, bern p.p_v u1, bern p.p_v u2, 0, 0⟩
  (s, (ss_you s, ss_opp s))

/-- `reward` of `env.py` lines 131-144, embedded faithfully: the positive
terms of lines 133-137 are computed, then line 140 executes
`p = self.gank_penalty(self, w, v, a_self)` — a bound-method call passing
five arguments to the four-parameter method `gank_penalty` — which raises
`TypeError` before the Bernoulli draw at line 141 is reached. -/
def reward_code (p : LaneParams) (w m v a_self a_opp w_next : ℤ) :
    Except Err ℚ :=
  let r : ℚ := payoff_matrix p a_self a_opp
    + p.b_plates * I (a_self = SH) * I (w ≥ 1)
    + (p.b_deny * I (a_self = F) * I (w ≤ -1)
        + p.b_deny_bonus * I (a_self = F) * I (w ≤ -1) * I (a_opp = SP ∨ a_opp = SH))
    + p.b_crash * I (w_next = 2) * I (m = 2)
  -- line 140 raises before `r` is ever used
  let _ := r
  let _ := v
  Except.error Err.typeError

/-- Intended reward of `env.py` lines 131-144: identical to the source
except for the call at line 140, which the source writes as
`self.gank_penalty(self, w, v, a_self)` (a `TypeError`); the spec's design
notes (section 9) identify this as a source defect whose evident intent is
`self.gank_penalty(w, v, a_self)`, which is used here. The uniform draw `u`
feeding `bernoulli` is explicit. -/
def reward_intended (p : LaneParams) (w m v a_self a_opp w_next : ℤ)
    (u : ℚ) : ℚ :=
  payoff_matrix p a_self a_opp
    + p.b_plates * I (a_self = SH) * I (w ≥ 1)
    + (p.b_deny * I (a_self = F) * I (w ≤ -1)
        + p.b_deny_bonus * I (a_self = F) * I (w ≤ -1) * I (a_opp = SP ∨ a_opp = SH))
    + p.b_crash * I (w_next = 2) * I (m = 2)
    - p.L * ((bern (gank_penalty p w v a_self) u : ℤ) : ℚ)

/-- `step` of `env.py` lines 147-188, embedded faithfully. In the source,
every mutation of `self` (lines 174-182) comes after the two `delta_w`
calls (line 159) and the two `reward` calls (lines 166-167), so whenever an
exception is raised the state is returned unchanged; the result pairs the
(possibly unchanged) state with the `Except` outcome. Since `reward_code`
always raises `TypeError`, no call to `step` completes. -/
def step_code (p : LaneParams) (s : GameState) (a_self a_opp : ℤ) :
    GameState × Except Err ((Obs × Obs) × (ℚ × ℚ) × Bool) :=
  match delta_w a_self with
  | Except.error e => (s, Except.error e)
  | Except.ok da =>
    match delta_w a_opp with
    | Except.error e => (s, Except.error e)
    | Except.ok db =>
      let w_next := max (-2) (min 2 (s.w + da - db))
      match reward_code p s.w s.m_self s.v_self a_self a_opp w_next with
      | Except.error e => (s, Except.error e)
      | Except.ok _ =>
        -- unreachable: reward_code always raises (env.py line 140)
        (s, Except.error Err.typeError)

/-- Core of the intended `step` (lines 147-188) once both wave deltas are
known: wave clamp, the two perspective rewards (via `reward_intended`),
advantage clamp, stack updates (`wave_update`), vision resampling, time
increment, done flag, and the mirrored-observation return value. The four
uniform draws (gank self, gank opp, vision self, vision opp) are explicit. -/
def step_core (p : LaneParams) (s : GameState) (a_self a_opp da db : ℤ)
    (u1 u2 u3 u4 : ℚ) :
    GameState × ((Obs × Obs) × (ℚ × ℚ) × Bool) :=
  let w_next := max (-2) (min 2 (s.w + da - db))
  let r_self := reward_intended p s.w s.m_self s.v_self a_self a_opp w_next u1
  let r_opp := reward_intended p (-s.w) s.m_opp s.v_opp a_opp a_self (-w_next) u2
  let g_next := max (-p.G) (min p.G (s.g + (r_self - r_opp)))
  let s2 : GameState :=
    ⟨w_next, wave_update s.m_self a_self w_next,
      wave_update s.m_opp a_opp (-w_next),
      bern p.p_v u3, bern p.p_v u4, g_next, s.t + 1⟩
  (s2, ((ss_you s2, ss_opp s2), (r_self, r_opp), decide (p.T ≤ s.t + 1)))

/-- Intended `step` of `env.py` lines 147-188: the source transition with
the line-140 defect repaired as in `reward_intended` (and the `update_stack`
call sites resolved to the `wave_update` method actually defined). Invalid
actions fail through `delta_w` exactly as in the source. -/
def step_intended (p : LaneParams) (s : GameState) (a_self a_opp : ℤ)
    (u1 u2 u3 u4 : ℚ) :
    Except Err (GameState × ((Obs × Obs) × (ℚ × ℚ) × Bool)) :=
  match delta_w a_self with
  | Except.error e => Except.error e
  | Except.ok da =>
    match delta_w a_opp with
    | Except.error e => Except.error e
    | Except.ok db => Except.ok (step_core p s a_self a_opp da db u1 u2 u3 u4)

/-- One step's worth of driver input: the two actions and the four uniform
draws consumed by the intended `step`. -/
structure StepIn where
  a : ℤ
  b : ℤ
  u1 : ℚ
  u2 : ℚ
  u3 : ℚ
  u4 : ℚ

/-- Iterated intended `step`: runs a list of inputs from a state, collecting
the returned done flags in order. -/
def run (p : LaneParams) (s : GameState) : List StepIn →
    Except Err (GameState × List Bool)
  | [] => Except.ok (s, [])
  | i :: is =>
    match step_intended p s i.a i.b i.u1 i.u2 i.u3 i.u4 with
    | Except.error e => Except.error e
    | Except.ok (s2, out) =>
      match run p s2 is with
      | Except.error e => Except.error e
      | Except.ok (s3, fls) => Except.ok (s3, out.2.2 :: fls)

/-- The clamping invariants of spec section 8 on a game state:
`w ∈ [-2,2]`, `m_self, m_opp ∈ {0,1,2}`, `v_self, v_opp ∈ {0,1}`,
`g ∈ [-G, G]`. -/
def StateInv (p : LaneParams) (s : GameState) : Prop :=
  -2 ≤ s.w ∧ s.w ≤ 2 ∧
  0 ≤ s.m_self ∧ s.m_self ≤ 2 ∧
  0 ≤ s.m_opp ∧ s.m_opp ≤ 2 ∧
  (s.v_self = 0 ∨ s.v_self = 1) ∧
  (s.v_opp = 0 ∨ s.v_opp = 1) ∧
  -p.G ≤ s.g ∧ s.g ≤ p.G

instance (p : LaneParams) (s : GameState) : Decidable (StateInv p s) := by
  unfold StateInv; infer_instance

/-- Mirroring of an observation tuple `(w, m_self, m_opp, v_self, v_opp, g)`:
negate `w` and `g`, swap the `m` pair and the `v` pair. -/
def mirrorObs (o : Obs) : Obs :=
  (-o.1, o.2.2.1, o.2.1, o.2.2.2.2.1, o.2.2.2.1, -o.2.2.2.2.2)

/-- C7: in every state (in particular every reachable one, immediately
after reset and after every step), the opponent observation `ss_opp` equals
the self observation `ss_you` with `w` and `g` negated and the `m` and `v`
fields swapped. -/
theorem mirror_invariant : ∀ s : GameState, ss_opp s = mirrorObs (ss_you s) :=
  fun _ => rfl

/-- C1 counterexample: with the default parameters (`eps = 0.3`), the
payoff of `(SHOVE, SPLIT)` is `-eps`, not the `+eps` the claim states —
the source's "counter" pairs are `(SP, SH), (SH, F), (F, SP)`, the reverse
of the claim's direction. -/
theorem payoff_SH_SP_counter :
    payoff_matrix defaultParams SH SP = -defaultParams.eps ∧
    payoff_matrix defaultParams SH SP ≠ defaultParams.eps := by
  constructor
  · norm_num [payoff_matrix, SP, SH, F]
  · norm_num [payoff_matrix, SP, SH, F, defaultParams]

/-- C1 (amended): the cyclic-dominance direction of `payoff_matrix` is
`payoff(SPLIT, SHOVE) = +eps`, `payoff(SHOVE, FREEZE) = +eps`,
`payoff(FREEZE, SPLIT) = +eps`, the three reverse pairs equal `-eps`, and
`payoff(a, a) = 0` for every action `a`. -/
theorem payoff_cycle : ∀ (p : LaneParams) (a : ℤ),
    payoff_matrix p SP SH = p.eps ∧
    payoff_matrix p SH F = p.eps ∧
    payoff_matrix p F SP = p.eps ∧
    payoff_matrix p SH SP = -p.eps ∧
    payoff_matrix p F SH = -p.eps ∧
    payoff_matrix p SP F = -p.eps ∧
    payoff_matrix p a a = 0 := by
  intro p a
  refine ⟨?_, ?_, ?_, ?_, ?_, ?_, ?_⟩ <;>
    simp [payoff_matrix, SP, SH, F]

/-- C2: the probability computed by `gank_penalty` is exactly
`clamp01(q0 + q1*[w=2] + q2*[a=SH]) * (1 - v)`, and vision `v = 1` makes it
zero; but the `reward` method as written never subtracts `L` times a
Bernoulli draw of that probability — its call to `gank_penalty` at
`env.py:140` passes an extra `self` argument and raises `TypeError` (shown
here at a concrete input). -/
theorem gank_prob_and_reward_crash :
    (∀ (p : LaneParams) (w v a : ℤ),
      gank_penalty p w v a
        = max 0 (min 1 (p.q0 + p.q1 * I (w = 2) + p.q2 * I (a = SH)))
            * (1 - (v : ℚ))) ∧
    (∀ (p : LaneParams) (w a : ℤ), gank_penalty p w 1 a = 0) ∧
    reward_code defaultParams 0 0 0 SP F 2 = Except.error Err.typeError := by
  refine ⟨?_, ?_, rfl⟩
  · intro p w v a
    unfold gank_penalty
    ring
  · intro p w a
    unfold gank_penalty
    norm_num

/-- Helper: the stack update keeps the stack in `{0, 1, 2}`. -/
theorem wave_update_bounds (m a w_next : ℤ) (h0 : 0 ≤ m) (h2 : m ≤ 2) :
    0 ≤ wave_update m a w_next ∧ wave_update m a w_next ≤ 2 := by
  unfold wave_update
  split_ifs <;> omega

/-- Helper: `bern` only produces 0 or 1. -/
theorem bern_cases (p u : ℚ) : bern p u = 0 ∨ bern p u = 1 := by
  unfold bern
  split_ifs <;> simp

/-- Helper: the state produced by `step_core` satisfies the clamping
invariants whenever the incoming state does and `0 ≤ G`. -/
theorem step_core_inv (p : LaneParams) (s : GameState) (a b da db : ℤ)
    (u1 u2 u3 u4 : ℚ) (hG : 0 ≤ p.G) (hs : StateInv p s) :
    StateInv p (step_core p s a b da db u1 u2 u3 u4).1 := by
  obtain ⟨_, _, hm1, hm2, hm3, hm4, _, _, _, _⟩ := hs
  refine ⟨?_, ?_, ?_, ?_, ?_, ?_, ?_, ?_, ?_, ?_⟩
  · exact le_max_left _ _
  · exact max_le (by norm_num) (min_le_left _ _)
  · exact (wave_update_bounds _ _ _ hm1 hm2).1
  · exact (wave_update_bounds _ _ _ hm1 hm2).2
  · exact (wave_update_bounds _ _ _ hm3 hm4).1
  · exact (wave_update_bounds _ _ _ hm3 hm4).2
  · exact bern_cases _ _
  · exact bern_cases _ _
  · exact le_max_left _ _
  · exact max_le (by linarith) (min_le_left _ _)

/-- Helper: inversion for a successful intended step — the result is a
`step_core` value. -/
theorem step_intended_ok (p : LaneParams) (s : GameState) (a b : ℤ)
    (u1 u2 u3 u4 : ℚ) (s2 : GameState)
    (out : (Obs × Obs) × (ℚ × ℚ) × Bool)
    (h : step_intended p s a b u1 u2 u3 u4 = Except.ok (s2, out)) :
    ∃ da db, delta_w a = Except.ok da ∧ delta_w b = Except.ok db ∧
      (s2, out) = step_core p s a b da db u1 u2 u3 u4 := by
  unfold step_intended at h
  cases hda : delta_w a with
  | error e => rw [hda] at h; cases h
  | ok da =>
    rw [hda] at h
    cases hdb : delta_w b with
    | error e => rw [hdb] at h; cases h
    | ok db =>
      rw [hdb] at h
      refine ⟨da, db, rfl, rfl, ?_⟩
      cases h
      rfl

/-- C6: after reset, and after every successful intended step (the source's
`step` repaired per the spec's design notes, since as written it raises
`TypeError` on every call), the state satisfies `w ∈ [-2,2]`,
`m_self, m_opp ∈ {0,1,2}`, `v_self, v_opp ∈ {0,1}` and `g ∈ [-G,G]`,
provided `0 ≤ G`. (The claim's stronger "g is an integer" is false of the
dynamics: `g` accumulates rational rewards.) -/
theorem reachable_invariants : ∀ p : LaneParams, 0 ≤ p.G →
    StateInv p reset_code ∧
    (∀ (s : GameState) (a b : ℤ) (u1 u2 u3 u4 : ℚ) (s2 : GameState)
      (out : (Obs × Obs) × (ℚ × ℚ) × Bool),
      StateInv p s →
      step_intended p s a b u1 u2 u3 u4 = Except.ok (s2, out) →
      StateInv p s2) := by
  intro p hG
  constructor
  · refine ⟨?_, ?_, ?_, ?_, ?_, ?_, ?_, ?_, ?_, ?_⟩ <;>
      simp [reset_code] <;> linarith
  · intro s a b u1 u2 u3 u4 s2 out hs h
    obtain ⟨da, db, _, _, heq⟩ := step_intended_ok p s a b u1 u2 u3 u4 s2 out h
    have h1 : s2 = (step_core p s a b da db u1 u2 u3 u4).1 := by
      rw [← heq]
    rw [h1]
    exact step_core_inv p s a b da db u1 u2 u3 u4 hG hs

/-- C6 witness: the invariants hold at the reset state and at the concrete
state reached from it by one intended step with actions `(SPLIT, SPLIT)`
and all four uniform draws equal to 1. -/
theorem reachable_invariants_w :
    StateInv defaultParams reset_code ∧
    StateInv defaultParams ⟨0, 1, 1, 0, 0, 0, 1⟩ := by
  have h := reachable_invariants defaultParams (by norm_num [defaultParams])
  have hstep : step_intended defaultParams reset_code SP SP 1 1 1 1 =
      Except.ok (⟨0, 1, 1, 0, 0, 0, 1⟩,
        ((0, 1, 1, 0, 0, 0), (0, 1, 1, 0, 0, 0)), (0, 0), false) := by
    norm_num [step_intended, step_core, delta_w, reward_intended,
      payoff_matrix, gank_penalty, I, bern, wave_update, ss_you, ss_opp,
      reset_code, defaultParams, SP, SH, F]
  refine ⟨h.1, ?_⟩
  exact h.2 reset_code SP SP 1 1 1 1 ⟨0, 1, 1, 0, 0, 0, 1⟩
    (((0, 1, 1, 0, 0, 0), (0, 1, 1, 0, 0, 0)), (0, 0), false) h.1 hstep

/-- Helper: a successful intended step increments `t` by one and returns
done flag `decide (T ≤ t + 1)`. -/
theorem step_intended_t (p : LaneParams) (s : GameState) (a b : ℤ)
    (u1 u2 u3 u4 : ℚ) (s2 : GameState)
    (out : (Obs × Obs) × (ℚ × ℚ) × Bool)
    (h : step_intended p s a b u1 u2 u3 u4 = Except.ok (s2, out)) :
    s2.t = s.t + 1 ∧ out.2.2 = decide (p.T ≤ s.t + 1) := by
  obtain ⟨da, db, _, _, heq⟩ := step_intended_ok p s a b u1 u2 u3 u4 s2 out h
  have h1 : s2 = (step_core p s a b da db u1 u2 u3 u4).1 := by rw [← heq]
  have h2 : out = (step_core p s a b da db u1 u2 u3 u4).2 := by rw [← heq]
  constructor
  · rw [h1]; rfl
  · rw [h2]; rfl

/-- Helper: along any successful run, the `k`-th collected done flag (0-based)
is `decide (T ≤ t₀ + k + 1)` where `t₀` is the starting step count. -/
theorem run_flags (p : LaneParams) :
    ∀ (ins : List StepIn) (s s3 : GameState) (fls : List Bool),
      run p s ins = Except.ok (s3, fls) →
      fls.length = ins.length ∧
      ∀ k, k < ins.length → fls.getD k false = decide (p.T ≤ s.t + k + 1) := by
  intro ins
  induction ins with
  | nil =>
    intro s s3 fls h
    unfold run at h
    cases h
    exact ⟨rfl, fun k hk => absurd hk (by simp)⟩
  | cons i is ih =>
    intro s s3 fls h
    unfold run at h
    cases hstep : step_intended p s i.a i.b i.u1 i.u2 i.u3 i.u4 with
    | error e => rw [hstep] at h; cases h
    | ok pr =>
      rw [hstep] at h
      obtain ⟨s2, out⟩ := pr
      dsimp only at h
      cases hrun : run p s2 is with
      | error e => rw [hrun] at h; cases h
      | ok pr2 =>
        rw [hrun] at h
        obtain ⟨s4, fls2⟩ := pr2
        cases h
        obtain ⟨ht, hfl⟩ := step_intended_t p s i.a i.b i.u1 i.u2 i.u3 i.u4
          s2 out hstep
        obtain ⟨hlen, hks⟩ := ih s2 s3 fls2 hrun
        refine ⟨by simp [hlen], ?_⟩
        intro k hk
        cases k with
        | zero => simpa using hfl
        | succ k2 =>
          have hk2 : k2 < is.length := by
            simpa [Nat.succ_lt_succ_iff] using hk
          have hgd := hks k2 hk2
          have harith : s2.t + k2 + 1 = s.t + (k2 + 1) + 1 := by omega
          rw [List.getD_cons_succ, hgd, harith]

/-- C9: starting from the reset state, along every successful sequence of
intended steps (the source's `step` repaired per the spec's design notes,
since as written it raises `TypeError` on every call), the done flag
returned by the `k`-th call (0-based index `k`) is true exactly when
`T ≤ k + 1`: false for every call before the `T`-th and true from the
`T`-th call on. -/
theorem done_after_T :
    ∀ (p : LaneParams) (ins : List StepIn) (s3 : GameState)
      (fls : List Bool) (k : ℕ),
      run p reset_code ins = Except.ok (s3, fls) →
      k < ins.length →
      (fls.getD k false = true ↔ p.T ≤ k + 1) := by
  intro p ins s3 fls k h hk
  have := (run_flags p ins reset_code s3 fls h).2 k hk
  have ht : reset_code.t = 0 := rfl
  rw [ht] at this
  simp only [Nat.zero_add] at this
  rw [this]
  simp

/-- C9 witness: with `T = 1` and a single `(SPLIT, SPLIT)` step from reset,
the first call's done flag is true (`1 ≤ 0 + 1`). -/
theorem done_after_T_w :
    ([true].getD 0 false = true) ↔
      (⟨1, 3, 3/10, 3/5, 3/5, 2/5, 1/5, 4/5, 1/20, 1/5, 3/20, 5⟩ :
        LaneParams).T ≤ 0 + 1 := by
  refine done_after_T _ [⟨SP, SP, 1, 1, 1, 1⟩] ⟨0, 1, 1, 0, 0, 0, 1⟩ [true]
    0 ?_ (by norm_num)
  show (match step_intended _ reset_code SP SP 1 1 1 1 with
    | Except.error e => Except.error e
    | Except.ok (s2, out) =>
      match (Except.ok (s2, []) : Except Err (GameState × List Bool)) with
      | Except.error e => Except.error e
      | Except.ok (s4, fls2) => Except.ok (s4, out.2.2 :: fls2)) =
    Except.ok (⟨0, 1, 1, 0, 0, 0, 1⟩, [true])
  norm_num [step_intended, step_core, delta_w, reward_intended,
    payoff_matrix, gank_penalty, I, bern, wave_update, ss_you, ss_opp,
    reset_code, SP, SH, F]

/-- Helper: `delta_w` raises the invalid-action error exactly on actions
outside the canonical three. -/
theorem delta_w_invalid (a : ℤ) (h : ¬(a = SP ∨ a = SH ∨ a = F)) :
    delta_w a = Except.error Err.invalidAction := by
  push_neg at h
  obtain ⟨h1, h2, h3⟩ := h
  unfold delta_w
  rw [if_neg h1, if_neg h2, if_neg h3]

/-- C8: `step` raises the invalid-action error and leaves the state
unchanged whenever either action is outside `{SPLIT, SHOVE, FREEZE}`; when
both actions are canonical, no invalid-action error is raised (as written,
the source's `step` then fails with the separate `TypeError` of
`env.py:140`, which is not an invalid-action error, and the state is still
unchanged). -/
theorem step_invalid_action : ∀ (p : LaneParams) (s : GameState) (a b : ℤ),
    ((¬(a = SP ∨ a = SH ∨ a = F) ∨ ¬(b = SP ∨ b = SH ∨ b = F)) →
      step_code p s a b = (s, Except.error Err.invalidAction)) ∧
    ((a = SP ∨ a = SH ∨ a = F) → (b = SP ∨ b = SH ∨ b = F) →
      (step_code p s a b).1 = s ∧
      (step_code p s a b).2 ≠ Except.error Err.invalidAction) := by
  intro p s a b
  constructor
  · intro hinv
    by_cases ha : a = SP ∨ a = SH ∨ a = F
    · have hb : ¬(b = SP ∨ b = SH ∨ b = F) := by tauto
      unfold step_code
      rcases ha with h | h | h <;> subst h <;>
        rw [delta_w_invalid b hb] <;> rfl
    · unfold step_code
      rw [delta_w_invalid a ha]
  · intro ha hb
    unfold step_code
    rcases ha with h | h | h <;> subst h <;>
      rcases hb with h2 | h2 | h2 <;> subst h2 <;>
      exact ⟨rfl, by simp [delta_w, SP, SH, F, reward_code]⟩

/-- C8 witness: at action `5` (not canonical) against `SPLIT`, `step`
returns the unchanged reset state with the invalid-action error; at the
canonical pair `(SPLIT, SHOVE)` the state is unchanged and the outcome is
not the invalid-action error. -/
theorem step_invalid_action_w :
    step_code defaultParams reset_code 5 SP
      = (reset_code, Except.error Err.invalidAction) ∧
    (step_code defaultParams reset_code SP SH).1 = reset_code ∧
    (step_code defaultParams reset_code SP SH).2
      ≠ Except.error Err.invalidAction := by
  refine ⟨?_, ?_⟩
  · exact (step_invalid_action defaultParams reset_code 5 SP).1
      (Or.inl (by norm_num [SP, SH, F]))
  · exact (step_invalid_action defaultParams reset_code SP SH).2
      (Or.inl rfl) (Or.inr (Or.inl rfl))

/-- C4 counterexample: at the concrete uniform draws `u1 = u2 = 0`, a fresh
Bernoulli(`p_v = 0.6`) sample for the vision flags (as the claim describes,
embodied by `resetSpec`) yields `v_self = 1`, but `reset` as written sets
`v_self = 0` unconditionally (it consumes no randomness at all, and returns
`None` rather than an observation pair). -/
theorem reset_not_sampled :
    reset_code.v_self = 0 ∧
    ((resetSpec defaultParams 0 0).1).v_self = 1 ∧
    reset_code.v_self ≠ ((resetSpec defaultParams 0 0).1).v_self := by
  refine ⟨rfl, ?_, ?_⟩ <;>
    norm_num [reset_code, resetSpec, bern, defaultParams]

/-- C4 (amended): `reset` reinitializes the game state to
`w = 0, m_self = 0, m_opp = 0, g = 0, t = 0` with both vision flags set
deterministically to `0` (no Bernoulli sampling), returns `None` rather
than an observation pair, and has no error conditions. -/
theorem reset_fields :
    reset_code.w = 0 ∧ reset_code.m_self = 0 ∧ reset_code.m_opp = 0 ∧
    reset_code.v_self = 0 ∧ reset_code.v_opp = 0 ∧ reset_code.g = 0 ∧
    reset_code.t = 0 := by
  exact ⟨rfl, rfl, rfl, rfl, rfl, rfl, rfl⟩

/-- Tabular Q-learning agent state (`agents.py` lines 8-15): learning rate
`alpha`, discount `gamma`, exploration rate `eps`, the canonical action
list (a copy of `ACTIONS`), and the Q-table — a `defaultdict` mapping
observations to per-action value rows, modelled as a partial map (`none`
for keys never materialized; the lazy zero-row default is applied at every
read, which is observationally equivalent to `defaultdict` insertion). -/
structure QLearningAgent where
  alpha : ℚ
  gamma : ℚ
  eps : ℚ
  actions : List ℤ
  Q : Obs → Option (List ℚ)

/-- Constructor `QLearningAgent.__init__` (`agents.py` lines 9-15):
`actions = list(ACTIONS)` and an empty Q-table whose missing rows default
to `[0.0 for _ in ACTIONS]`. -/
def mkQLearningAgent (alpha gamma eps : ℚ) : QLearningAgent :=
  ⟨alpha, gamma, eps, ACTIONS, fun _ => none⟩

/-- The row the `defaultdict` Q-table yields for an observation: the stored
row if present, else the zero row `[0.0 for _ in ACTIONS]`. -/
def rowOf (Q : Obs → Option (List ℚ)) (s : Obs) : List ℚ :=
  (Q s).getD [0, 0, 0]

/-- Python list indexing `q[i]` on a Q-row (rows constructed by the agent
always have length 3, so the default is never exercised on reachable
tables). -/
def qget (q : List ℚ) (i : ℕ) : ℚ :=
  q.getD i 0

/-- Python's `max(range(n), key=lambda i: q[i])` (`agents.py` lines 23 and
39): the first index among `0..n-1` attaining the maximal value — a later
index replaces the current best only when strictly greater (stable
argmax). -/
def argmax_idx (n : ℕ) (q : List ℚ) : ℕ :=
  (List.range n).foldl (fun b i => if qget q i > qget q b then i else b) 0

/-- Intended `act` (`agents.py` lines 17-24; the source leaves it nested
inside `__init__`, so it is not reachable as a method on an instance — a
defect named in the spec's design notes): with the exploration draw
`u < eps`, a uniformly random action (`random.choice`, modelled by an
arbitrary index `j` taken mod the list length); otherwise the stable
argmax of the observation's Q-row in canonical action order. -/
def act (ag : QLearningAgent) (s : Obs) (u : ℚ) (j : ℕ) : ℤ :=
  if u < ag.eps then ag.actions.getD (j % ag.actions.length) 0
  else ag.actions.getD (argmax_idx ag.actions.length (rowOf ag.Q s)) 0

/-- Python's `max(list)` on a nonempty float list (`agents.py` line 28). -/
def list_max : List ℚ → ℚ
  | [] => 0
  | x :: xs => xs.foldl max x

/-- Intended `update` (`agents.py` lines 25-30): the source nests it inside
`__init__` (unreachable as a method) and writes the final store as
`self.Q[s][ai]` with the undefined name `ai` (a `NameError`) — both named
as defects in the spec's design notes; the intended index is the computed
`a_i = self.actions.index(a)`, used here. `target` is computed from the
pre-update table, exactly as in the source. -/
def update (ag : QLearningAgent) (s : Obs) (a : ℤ) (r : ℚ) (s_next : Obs) :
    QLearningAgent :=
  let a_i := ag.actions.indexOf a
  let row := rowOf ag.Q s
  let q_sa := qget row a_i
  let target := r + ag.gamma * list_max (rowOf ag.Q s_next)
  ⟨ag.alpha, ag.gamma, ag.eps, ag.actions,
    fun o => if o = s then some (row.set a_i (q_sa + ag.alpha * (target - q_sa)))
      else ag.Q o⟩

/-- The frozen policy produced by `snapshot_greedy_policy` (`agents.py`
lines 33-42): an immutable value holding the copied Q-table
(`{k: v[:] for k, v in self.Q.items()}`) and the copied action list. -/
structure FrozenPolicy where
  Qfrozen : Obs → Option (List ℚ)
  actions : List ℤ

/-- Evaluation `pi` of a frozen policy (`agents.py` lines 37-40):
`Q_copy.get(s, [0.0 for _ in actions])` followed by the same stable argmax
as `act`, with no exploration branch. -/
def FrozenPolicy.pi (pol : FrozenPolicy) (s : Obs) : ℤ :=
  pol.actions.getD
    (argmax_idx pol.actions.length ((pol.Qfrozen s).getD [0, 0, 0])) 0

/-- Intended `snapshot_greedy_policy` (`agents.py` lines 33-42; nested
inside `__init__` in the source like the other two methods): deep-copies
the Q-table and action list at call time into an immutable
`FrozenPolicy`. -/
def snapshot_greedy_policy (ag : QLearningAgent) : FrozenPolicy :=
  ⟨ag.Q, ag.actions⟩

/-- A sequence of `update` calls applied in order to a live agent. -/
def applyUpdates (ag : QLearningAgent) (us : List (Obs × ℤ × ℚ × Obs)) :
    QLearningAgent :=
  us.foldl (fun g u => update g u.1 u.2.1 u.2.2.1 u.2.2.2) ag

/-- Helper: `update` never touches the action list, so neither does any
sequence of updates. -/
theorem applyUpdates_actions (us : List (Obs × ℤ × ℚ × Obs)) :
    ∀ ag : QLearningAgent, (applyUpdates ag us).actions = ag.actions := by
  induction us with
  | nil => intro ag; rfl
  | cons u us2 ih =>
    intro ag
    exact ih (update ag u.1 u.2.1 u.2.2.1 u.2.2.2)

/-- C5: a frozen policy taken by `snapshot_greedy_policy` before any
sequence of `update` calls mutates the live agent evaluates, at every
observation `o`, to the stable argmax (first maximum in canonical action
order, no exploration) of the Q-row for `o` as it was at snapshot time:
the snapshot holds its own copy of the table, so the updated live agent
(`applyUpdates ag us`) leaves it untouched. (In the source the method is
nested inside `__init__` and unreachable on an instance — the code defect
recorded for this claim; this theorem settles the snapshot logic itself.) -/
theorem snapshot_isolation :
    ∀ (ag : QLearningAgent) (us : List (Obs × ℤ × ℚ × Obs)) (o : Obs),
      FrozenPolicy.pi (snapshot_greedy_policy ag) o
        = ag.actions.getD (argmax_idx ag.actions.length (rowOf ag.Q o)) 0 ∧
      (applyUpdates ag us).actions = ag.actions := by
  intro ag us o
  exact ⟨rfl, applyUpdates_actions us ag⟩

/-- C10: on any observation whose Q-row is the zero row (in particular one
never updated), `act` returns `SPLIT` whenever the exploration branch is
not taken, and a frozen policy returns `SPLIT` on any observation absent
from its copied table. -/
theorem zero_row_split :
    (∀ (ag : QLearningAgent) (s : Obs) (u : ℚ) (j : ℕ),
      ag.actions = ACTIONS → rowOf ag.Q s = [0, 0, 0] → ag.eps ≤ u →
      act ag s u j = SP) ∧
    (∀ (pol : FrozenPolicy) (o : Obs),
      pol.actions = ACTIONS → pol.Qfrozen o = none →
      FrozenPolicy.pi pol o = SP) := by
  constructor
  · intro ag s u j ha hrow hu
    unfold act
    rw [if_neg (not_lt.mpr hu), ha, hrow]
    rfl
  · intro pol o ha hq
    unfold FrozenPolicy.pi
    rw [ha, hq]
    rfl

/-- C10 witness: a freshly constructed agent (all-`none` table, hence zero
rows everywhere) with the default hyperparameters picks `SPLIT` greedily
at the zero observation when the exploration draw is 1 (`1 ≥ eps`), and
the frozen policy snapshotted from it picks `SPLIT` there as well. -/
theorem zero_row_split_w :
    act (mkQLearningAgent (3/20) (19/20) (3/20)) (0, 0, 0, 0, 0, 0) 1 0 = SP ∧
    FrozenPolicy.pi
      (snapshot_greedy_policy (mkQLearningAgent (3/20) (19/20) (3/20)))
      (0, 0, 0, 0, 0, 0) = SP := by
  constructor
  · exact zero_row_split.1 (mkQLearningAgent (3/20) (19/20) (3/20))
      (0, 0, 0, 0, 0, 0) 1 0 rfl rfl (by norm_num [mkQLearningAgent])
  · exact zero_row_split.2
      (snapshot_greedy_policy (mkQLearningAgent (3/20) (19/20) (3/20)))
      (0, 0, 0, 0, 0, 0) rfl rfl

/-- C3: for a canonical action `a`, the intended `update(s, a, r, s_next)`
(the source's inner `update` with its `ai`/`a_i` name slip repaired per the
spec's design notes; as written the method is nested in `__init__` and its
store raises `NameError`) sets the Q-row entry of `s` at the index of `a`
in the canonical action order to
`old + alpha * (r + gamma * max(Q[s_next]) - old)`, and changes no other
Q-table entry: rows of other observations are untouched, and so are the
other two entries of the row of `s`. -/
theorem update_sets_entry :
    ∀ (ag : QLearningAgent) (s : Obs) (a : ℤ) (r : ℚ) (s_next : Obs),
      ag.actions = ACTIONS → (a = SP ∨ a = SH ∨ a = F) →
      (rowOf ag.Q s).length = 3 →
      qget (rowOf (update ag s a r s_next).Q s) (ag.actions.indexOf a)
        = qget (rowOf ag.Q s) (ag.actions.indexOf a)
          + ag.alpha * ((r + ag.gamma * list_max (rowOf ag.Q s_next))
              - qget (rowOf ag.Q s) (ag.actions.indexOf a)) ∧
      (∀ o : Obs, o ≠ s → (update ag s a r s_next).Q o = ag.Q o) ∧
      (∀ j : ℕ, j < 3 → j ≠ ag.actions.indexOf a →
        qget (rowOf (update ag s a r s_next).Q s) j
          = qget (rowOf ag.Q s) j) := by
  intro ag s a r s_next ha hcanon hlen
  obtain ⟨x, y, z, hrow⟩ := List.length_eq_three.mp hlen
  have hQs : rowOf (update ag s a r s_next).Q s
      = (rowOf ag.Q s).set (ag.actions.indexOf a)
          (qget (rowOf ag.Q s) (ag.actions.indexOf a)
            + ag.alpha * ((r + ag.gamma * list_max (rowOf ag.Q s_next))
                - qget (rowOf ag.Q s) (ag.actions.indexOf a))) := by
    simp [update, rowOf]
  refine ⟨?_, ?_, ?_⟩
  · rw [hQs, hrow]
    rcases hcanon with h | h | h <;> subst h <;> rw [ha] <;>
      simp [ACTIONS, SP, SH, F, qget]
  · intro o ho
    simp [update, ho]
  · intro j hj hji
    rw [hQs, hrow]
    rcases hcanon with h | h | h <;> subst h <;> rw [ha] at hji ⊢ <;>
      interval_cases j <;> simp_all [ACTIONS, SP, SH, F, qget]

/-- C3 witness: on a fresh agent with default hyperparameters, updating the
zero observation with action `SHOVE` and reward `1` sets that row's middle
entry to `0 + 0.15 * (1 + 0.95 * 0 - 0)`, leaves other observations'
rows untouched, and leaves the row's other entries untouched. -/
theorem update_sets_entry_w :
    qget (rowOf (update (mkQLearningAgent (3/20) (19/20) (3/20))
        (0, 0, 0, 0, 0, 0) SH 1 (0, 0, 0, 0, 0, 0)).Q (0, 0, 0, 0, 0, 0))
        ((mkQLearningAgent (3/20) (19/20) (3/20)).actions.indexOf SH)
      = qget (rowOf (mkQLearningAgent (3/20) (19/20) (3/20)).Q
            (0, 0, 0, 0, 0, 0))
          ((mkQLearningAgent (3/20) (19/20) (3/20)).actions.indexOf SH)
        + (mkQLearningAgent (3/20) (19/20) (3/20)).alpha
          * ((1 + (mkQLearningAgent (3/20) (19/20) (3/20)).gamma
              * list_max (rowOf (mkQLearningAgent (3/20) (19/20) (3/20)).Q
                  (0, 0, 0, 0, 0, 0)))
            - qget (rowOf (mkQLearningAgent (3/20) (19/20) (3/20)).Q
                  (0, 0, 0, 0, 0, 0))
                ((mkQLearningAgent (3/20) (19/20) (3/20)).actions.indexOf SH)) := by
  exact (update_sets_entry (mkQLearningAgent (3/20) (19/20) (3/20))
    (0, 0, 0, 0, 0, 0) SH 1 (0, 0, 0, 0, 0, 0) rfl
    (Or.inr (Or.inl rfl)) rfl).1
